import Mathlib

/-!
Verification of the ParkWatch flood-zone resolver
(`frontend/api/fema-floodzone.js`, radius-ladder version).

The resolver receives `lat`/`lon` query parameters, validates them, queries
an upstream ArcGIS geometry service (first with a point-intersects query,
then with envelope queries at radii 300 m, 1000 m, 3000 m), scores each
candidate feature by the squared distance from the query point to its
nearest polygon vertex, and returns a FeatureCollection with at most one
feature plus metadata describing the resolution strategy.

Modelling conventions:
* JavaScript numbers that pass `Number.isFinite` are modelled as `ℚ`;
  a coordinate slot that is missing, not a number, or non-finite is `none`.
* `Number.POSITIVE_INFINITY` used as a score sentinel is `⊤ : WithTop ℚ`.
* `Math.cos((lat * Math.PI) / 180)` is evaluated by the JS runtime; the
  handler model takes its value as an explicit parameter `cosLat : ℚ`.
* The upstream service is an oracle `Query → UpstreamResult`; `fail`
  covers both a non-success HTTP status and a thrown fetch/parse error
  (`fetchGeoJson` throws in either case).
* The handler model returns both the HTTP response and the ordered list
  of outbound queries it issued, so that statements about which queries
  are (not) issued can be made.
-/

namespace ParkWatch

/-- One entry `pt` of a ring: `pt?.[0]` and `pt?.[1]` after the
`Number.isFinite` check; `none` means the slot is absent or non-finite. -/
abbrev Coord := Option ℚ × Option ℚ

/-- One entry of a `coordinates` array: `none` models a value for which
`Array.isArray(ring)` is false, `some pts` an actual ring. -/
abbrev RingC := Option (List Coord)

/-- The geometry of a candidate feature.  `other` covers any GeoJSON type
that is neither `Polygon` nor `MultiPolygon` (the code maps it to `null`
coordinates and hence an infinite score). -/
inductive Geometry where
  | polygon (coordinates : List RingC)
  | multiPolygon (coordinates : List (List RingC))
  | other
deriving DecidableEq

/-- A candidate feature: `feature?.geometry` may be absent; the attribute
payload is opaque to the resolver and modelled as a tag. -/
structure Feature where
  geometry : Option Geometry
  tag : ℕ
deriving DecidableEq

/-- A parsed upstream GeoJSON FeatureCollection (the resolver only reads
`fc?.features`). -/
structure FeatureCollection where
  features : List Feature
deriving DecidableEq

/-- The squared offset `dx*dx + dy*dy` for a vertex `(x, y)` against the query point. -/
def vertexD2 (lon0 lat0 x y : ℚ) : ℚ :=
  (x - lon0) * (x - lon0) + (y - lat0) * (y - lat0)

/-- The inner loop body of `featureScoreNearestVertex`: skip a vertex with
a non-finite coordinate, otherwise `if (d2 < best) best = d2`. -/
def ptStep (lon0 lat0 : ℚ) (best : WithTop ℚ) (pt : Coord) : WithTop ℚ :=
  match pt with
  | (some x, some y) =>
      if (vertexD2 lon0 lat0 x y : WithTop ℚ) < best
      then (vertexD2 lon0 lat0 x y : WithTop ℚ) else best
  | _ => best

/-- The outer loop body of `featureScoreNearestVertex`: skip a ring that is
not an array, otherwise fold over its vertices. -/
def ringStep (lon0 lat0 : ℚ) (best : WithTop ℚ) (ring : RingC) : WithTop ℚ :=
  match ring with
  | none => best
  | some pts => pts.foldl (ptStep lon0 lat0) best

/-- Coordinate extraction `geom.type === "Polygon" ? geom.coordinates : geom.type === "MultiPolygon"
? geom.coordinates.flat() : null`. -/
def coordsOf : Geometry → Option (List RingC)
  | Geometry.polygon cs => some cs
  | Geometry.multiPolygon cs => some cs.flatten
  | Geometry.other => none

/-- Scoring function `featureScoreNearestVertex(feature, lon0, lat0)`: the squared distance
from the query point to the nearest finite vertex of the feature's rings,
`+∞` when there is none. -/
def featureScoreNearestVertex (f : Feature) (lon0 lat0 : ℚ) : WithTop ℚ :=
  match f.geometry with
  | none => ⊤
  | some g =>
    match coordsOf g with
    | none => ⊤
    | some coords =>
      if coords.isEmpty then ⊤
      else coords.foldl (ringStep lon0 lat0) ⊤

/-- Modelled from the spec: extract the finite vertex pairs of a ring entry. -/
def coordFinite : Coord → Option (ℚ × ℚ)
  | (some x, some y) => some (x, y)
  | _ => none

/-- Modelled from the spec: the vertex set of a feature — for a `Polygon`
its own rings, for a `MultiPolygon` the union of the rings of all
constituent polygons; only genuine (finite) vertex pairs count. -/
def featureVertices (f : Feature) : List (ℚ × ℚ) :=
  match f.geometry with
  | none => []
  | some Geometry.other => []
  | some (Geometry.polygon rings) =>
      ((rings.filterMap id).flatten).filterMap coordFinite
  | some (Geometry.multiPolygon polys) =>
      ((polys.flatten.filterMap id).flatten).filterMap coordFinite

/-- Minimum of a list of extended scores (`⊤` for the empty list). -/
def listMin (l : List (WithTop ℚ)) : WithTop ℚ := l.foldr min ⊤

/-- Squared vertex distance as an extended score. -/
def d2T (lon0 lat0 : ℚ) (v : ℚ × ℚ) : WithTop ℚ :=
  ((vertexD2 lon0 lat0 v.1 v.2 : ℚ) : WithTop ℚ)

/-- Modelled from the spec: the score of a feature is the minimum over all
vertices of all rings of its geometry of the squared Euclidean distance (in
degree units) from the query point to the vertex. -/
def specNearestVertexScore (f : Feature) (lon0 lat0 : ℚ) : WithTop ℚ :=
  listMin ((featureVertices f).map (d2T lon0 lat0))

/-- Score contributed by one ring entry. -/
def vScore (lon0 lat0 : ℚ) (pt : Coord) : WithTop ℚ :=
  match coordFinite pt with
  | some v => d2T lon0 lat0 v
  | none => ⊤

theorem ptStep_eq_min (lon0 lat0 : ℚ) (b : WithTop ℚ) (pt : Coord) :
    ptStep lon0 lat0 b pt = min b (vScore lon0 lat0 pt) := by
  rcases pt with ⟨x?, y?⟩
  cases x? with
  | none => simp [ptStep, vScore, coordFinite]
  | some x =>
    cases y? with
    | none => simp [ptStep, vScore, coordFinite]
    | some y =>
      simp only [ptStep, vScore, coordFinite, d2T]
      rcases lt_or_ge ((vertexD2 lon0 lat0 x y : WithTop ℚ)) b with h | h
      · rw [if_pos h, min_eq_right (le_of_lt h)]
      · rw [if_neg (not_lt.mpr h), min_eq_left h]

theorem listMin_cons (x : WithTop ℚ) (l : List (WithTop ℚ)) :
    listMin (x :: l) = min x (listMin l) := rfl

theorem listMin_append (l₁ l₂ : List (WithTop ℚ)) :
    listMin (l₁ ++ l₂) = min (listMin l₁) (listMin l₂) := by
  induction l₁ with
  | nil => simp [listMin]
  | cons x l ih =>
    rw [List.cons_append, listMin_cons, listMin_cons, ih, min_assoc]

theorem foldl_min_eq (g : Coord → WithTop ℚ) (l : List Coord) (b : WithTop ℚ) :
    l.foldl (fun acc pt => min acc (g pt)) b = min b (listMin (l.map g)) := by
  induction l generalizing b with
  | nil => simp [listMin]
  | cons pt l ih =>
    rw [List.foldl_cons, ih, List.map_cons, listMin_cons, min_assoc]

/-- Score of one `coordinates` entry, as a value. -/
def ringMin (lon0 lat0 : ℚ) (ring : RingC) : WithTop ℚ :=
  match ring with
  | none => ⊤
  | some pts => listMin (pts.map (vScore lon0 lat0))

theorem ringStep_eq_min (lon0 lat0 : ℚ) (b : WithTop ℚ) (ring : RingC) :
    ringStep lon0 lat0 b ring = min b (ringMin lon0 lat0 ring) := by
  cases ring with
  | none => simp [ringStep, ringMin, min_eq_left le_top]
  | some pts =>
    have hstep : ptStep lon0 lat0 = fun acc pt => min acc (vScore lon0 lat0 pt) :=
      funext fun b' => funext fun pt => ptStep_eq_min lon0 lat0 b' pt
    simp only [ringStep, ringMin, hstep]
    exact foldl_min_eq (vScore lon0 lat0) pts b

theorem foldl_ringStep_eq (lon0 lat0 : ℚ) (coords : List RingC) (b : WithTop ℚ) :
    coords.foldl (ringStep lon0 lat0) b
      = min b (listMin (coords.map (ringMin lon0 lat0))) := by
  induction coords generalizing b with
  | nil => simp [listMin]
  | cons r l ih =>
    rw [List.foldl_cons, ringStep_eq_min, ih, List.map_cons, listMin_cons,
      min_assoc]

theorem listMin_filterMap_id (lon0 lat0 : ℚ) (l : List RingC) :
    listMin (l.map (ringMin lon0 lat0))
      = listMin ((l.filterMap id).map fun pts =>
          listMin (pts.map (vScore lon0 lat0))) := by
  induction l with
  | nil => rfl
  | cons r l ih =>
    cases r with
    | none =>
      rw [List.map_cons, listMin_cons]
      have : ringMin lon0 lat0 none = ⊤ := rfl
      rw [this, min_eq_right le_top, ih]
      rfl
    | some pts =>
      rw [List.map_cons, listMin_cons, ih]
      rfl

theorem listMin_join (lon0 lat0 : ℚ) (ls : List (List Coord)) :
    listMin (ls.map fun pts => listMin (pts.map (vScore lon0 lat0)))
      = listMin (ls.flatten.map (vScore lon0 lat0)) := by
  induction ls with
  | nil => rfl
  | cons pts ls ih =>
    rw [List.map_cons, listMin_cons, List.flatten_cons, List.map_append,
      listMin_append, ih]

theorem listMin_vScore_filter (lon0 lat0 : ℚ) (pts : List Coord) :
    listMin (pts.map (vScore lon0 lat0))
      = listMin ((pts.filterMap coordFinite).map (d2T lon0 lat0)) := by
  induction pts with
  | nil => rfl
  | cons pt l ih =>
    rw [List.map_cons, listMin_cons, ih]
    cases h : coordFinite pt with
    | none =>
      have hv : vScore lon0 lat0 pt = ⊤ := by simp [vScore, h]
      rw [hv, min_eq_right le_top, List.filterMap_cons, h]
    | some v =>
      have hv : vScore lon0 lat0 pt = d2T lon0 lat0 v := by simp [vScore, h]
      rw [hv, List.filterMap_cons, h, List.map_cons, listMin_cons]

theorem score_coords_chain (lon0 lat0 : ℚ) (coords : List RingC) :
    (if coords.isEmpty then (⊤ : WithTop ℚ)
     else coords.foldl (ringStep lon0 lat0) ⊤)
      = listMin ((((coords.filterMap id).flatten).filterMap coordFinite).map
          (d2T lon0 lat0)) := by
  cases coords with
  | nil => rfl
  | cons r l =>
    rw [if_neg (by simp [List.isEmpty])]
    rw [foldl_ringStep_eq, min_eq_right le_top, listMin_filterMap_id,
      listMin_join, listMin_vScore_filter]

/-- The source scoring function agrees with the spec's description. -/
theorem featureScore_eq_spec (f : Feature) (lon0 lat0 : ℚ) :
    featureScoreNearestVertex f lon0 lat0 = specNearestVertexScore f lon0 lat0 := by
  rcases f with ⟨g?, tag⟩
  cases g? with
  | none => rfl
  | some g =>
    cases g with
    | other => rfl
    | polygon rings =>
      simpa [featureScoreNearestVertex, coordsOf, specNearestVertexScore,
        featureVertices] using score_coords_chain lon0 lat0 rings
    | multiPolygon polys =>
      simpa [featureScoreNearestVertex, coordsOf, specNearestVertexScore,
        featureVertices] using score_coords_chain lon0 lat0 polys.flatten

/-- C3: for every candidate feature, the score assigned by
`featureScoreNearestVertex` equals the minimum over all vertices of all
rings of that feature's geometry (Polygon: its own rings; MultiPolygon:
the rings of all constituent polygons) of the squared Euclidean distance
in degree units between the query point and the vertex. -/
theorem claim_C3_featureScore_is_min_vertex_distance
    (f : Feature) (lon0 lat0 : ℚ) :
    featureScoreNearestVertex f lon0 lat0 = specNearestVertexScore f lon0 lat0 :=
  featureScore_eq_spec f lon0 lat0

/-- The loop body of `chooseBestFeature`:
`if (score < bestScore) { bestScore = score; bestF = f; }`. -/
def chooseStep (lon0 lat0 : ℚ) (acc : Option Feature × WithTop ℚ) (f : Feature) :
    Option Feature × WithTop ℚ :=
  if featureScoreNearestVertex f lon0 lat0 < acc.2
  then (some f, featureScoreNearestVertex f lon0 lat0) else acc

/-- Selection function `chooseBestFeature(fc, lon0, lat0)`: linear scan keeping the first
feature whose score strictly improves on the best so far; `null` when the
feature list is empty (or when no feature ever beats the `+∞` start). -/
def chooseBestFeature (fc : FeatureCollection) (lon0 lat0 : ℚ) : Option Feature :=
  if fc.features.isEmpty then none
  else (fc.features.foldl (chooseStep lon0 lat0) (none, ⊤)).1

/-- Recursive characterisation of the scan: the first feature of `l` whose
score is strictly below `b`, refined by any later strictly better feature. -/
def pickRec (lon0 lat0 : ℚ) : List Feature → WithTop ℚ → Option Feature
  | [], _ => none
  | f :: l, b =>
    if featureScoreNearestVertex f lon0 lat0 < b then
      match pickRec lon0 lat0 l (featureScoreNearestVertex f lon0 lat0) with
      | some g => some g
      | none => some f
    else pickRec lon0 lat0 l b

theorem foldl_chooseStep_eq (lon0 lat0 : ℚ) (l : List Feature)
    (o : Option Feature) (b : WithTop ℚ) :
    (l.foldl (chooseStep lon0 lat0) (o, b)).1
      = match pickRec lon0 lat0 l b with
        | some g => some g
        | none => o := by
  induction l generalizing o b with
  | nil => rfl
  | cons f l ih =>
    rw [List.foldl_cons]
    by_cases h : featureScoreNearestVertex f lon0 lat0 < b
    · have hstep : chooseStep lon0 lat0 (o, b) f
        = (some f, featureScoreNearestVertex f lon0 lat0) := by
        simp [chooseStep, h]
      rw [hstep, ih]
      simp only [pickRec, if_pos h]
      cases pickRec lon0 lat0 l (featureScoreNearestVertex f lon0 lat0) <;> rfl
    · have hstep : chooseStep lon0 lat0 (o, b) f = (o, b) := by
        simp [chooseStep, h]
      rw [hstep, ih]
      simp only [pickRec, if_neg h]

theorem chooseBestFeature_eq_pickRec (fc : FeatureCollection) (lon0 lat0 : ℚ) :
    chooseBestFeature fc lon0 lat0 = pickRec lon0 lat0 fc.features ⊤ := by
  rcases fc with ⟨feats⟩
  cases feats with
  | nil => rfl
  | cons f l =>
    have h : chooseBestFeature ⟨f :: l⟩ lon0 lat0
        = ((f :: l).foldl (chooseStep lon0 lat0) (none, ⊤)).1 := rfl
    rw [h, foldl_chooseStep_eq]
    cases pickRec lon0 lat0 (f :: l) ⊤ <;> rfl

theorem pickRec_eq_none_iff (lon0 lat0 : ℚ) (l : List Feature) (b : WithTop ℚ) :
    pickRec lon0 lat0 l b = none
      ↔ ∀ f ∈ l, b ≤ featureScoreNearestVertex f lon0 lat0 := by
  induction l generalizing b with
  | nil => simp [pickRec]
  | cons f l ih =>
    by_cases h : featureScoreNearestVertex f lon0 lat0 < b
    · simp only [pickRec, if_pos h]
      constructor
      · intro hc
        rcases hp : pickRec lon0 lat0 l (featureScoreNearestVertex f lon0 lat0)
          with _ | g <;> simp [hp] at hc
      · intro hall
        exact absurd (hall f (List.mem_cons_self f l)) (not_le.mpr h)
    · simp only [pickRec, if_neg h]
      rw [ih]
      constructor
      · intro hall g hg
        rcases List.mem_cons.mp hg with rfl | hg'
        · exact not_lt.mp h
        · exact hall g hg'
      · intro hall g hg
        exact hall g (List.mem_cons_of_mem f hg)

theorem pickRec_spec (lon0 lat0 : ℚ) (l : List Feature) (b : WithTop ℚ)
    (g : Feature) :
    pickRec lon0 lat0 l b = some g →
      ∃ i, ∃ hi : i < l.length,
        g = l.get ⟨i, hi⟩ ∧
        featureScoreNearestVertex g lon0 lat0 < b ∧
        (∀ f ∈ l, featureScoreNearestVertex g lon0 lat0
          ≤ featureScoreNearestVertex f lon0 lat0) ∧
        (∀ j (hj : j < i), featureScoreNearestVertex g lon0 lat0
          < featureScoreNearestVertex (l.get ⟨j, lt_trans hj hi⟩) lon0 lat0) := by
  induction l generalizing b g with
  | nil => intro hg; exact absurd hg (by simp [pickRec])
  | cons f l ih =>
    intro hg
    by_cases h : featureScoreNearestVertex f lon0 lat0 < b
    · simp only [pickRec, if_pos h] at hg
      rcases hp : pickRec lon0 lat0 l (featureScoreNearestVertex f lon0 lat0)
        with _ | g'
      · rw [hp] at hg
        have hgf : f = g := by simpa using hg
        subst hgf
        refine ⟨0, Nat.succ_pos _, rfl, h, ?_, ?_⟩
        · intro x hx
          rcases List.mem_cons.mp hx with rfl | hx'
          · exact le_refl _
          · exact (pickRec_eq_none_iff lon0 lat0 l _).mp hp x hx'
        · intro j hj; exact absurd hj (Nat.not_lt_zero j)
      · rw [hp] at hg
        have hgg : g' = g := by simpa using hg
        subst hgg
        obtain ⟨i, hi, hgl, hlt, hle, hfirst⟩ := ih _ _ hp
        refine ⟨i + 1, Nat.succ_lt_succ hi, hgl, lt_trans hlt h, ?_, ?_⟩
        · intro x hx
          rcases List.mem_cons.mp hx with rfl | hx'
          · exact le_of_lt hlt
          · exact hle x hx'
        · intro j hj
          cases j with
          | zero => exact hlt
          | succ j' => exact hfirst j' (Nat.lt_of_succ_lt_succ hj)
    · simp only [pickRec, if_neg h] at hg
      obtain ⟨i, hi, hgl, hlt, hle, hfirst⟩ := ih _ _ hg
      have hgf : featureScoreNearestVertex g lon0 lat0
          < featureScoreNearestVertex f lon0 lat0 :=
        lt_of_lt_of_le hlt (not_lt.mp h)
      refine ⟨i + 1, Nat.succ_lt_succ hi, hgl, hlt, ?_, ?_⟩
      · intro x hx
        rcases List.mem_cons.mp hx with rfl | hx'
        · exact le_of_lt hgf
        · exact hle x hx'
      · intro j hj
        cases j with
        | zero => exact hgf
        | succ j' => exact hfirst j' (Nat.lt_of_succ_lt_succ hj)

theorem listMin_le_of_mem (l : List (WithTop ℚ)) (a : WithTop ℚ) (ha : a ∈ l) :
    listMin l ≤ a := by
  induction l with
  | nil => cases ha
  | cons x l ih =>
    rw [listMin_cons]
    rcases List.mem_cons.mp ha with rfl | ha'
    · exact min_le_left _ _
    · exact le_trans (min_le_right _ _) (ih ha')

theorem le_listMin (l : List (WithTop ℚ)) (c : WithTop ℚ)
    (h : ∀ a ∈ l, c ≤ a) : c ≤ listMin l := by
  induction l with
  | nil => exact le_top
  | cons x l ih =>
    rw [listMin_cons, le_min_iff]
    exact ⟨h x (List.mem_cons_self x l),
      ih fun a ha => h a (List.mem_cons_of_mem x ha)⟩

theorem vertexD2_nonneg (lon0 lat0 x y : ℚ) : 0 ≤ vertexD2 lon0 lat0 x y :=
  add_nonneg (mul_self_nonneg _) (mul_self_nonneg _)

theorem featureScore_nonneg (f : Feature) (lon0 lat0 : ℚ) :
    0 ≤ featureScoreNearestVertex f lon0 lat0 := by
  rw [featureScore_eq_spec]
  apply le_listMin
  intro a ha
  rcases List.mem_map.mp ha with ⟨v, hv, rfl⟩
  show (0 : WithTop ℚ) ≤ ((vertexD2 lon0 lat0 v.1 v.2 : ℚ) : WithTop ℚ)
  exact_mod_cast vertexD2_nonneg lon0 lat0 v.1 v.2

theorem featureScore_le_vertex (f : Feature) (lon0 lat0 : ℚ) (v : ℚ × ℚ)
    (hv : v ∈ featureVertices f) :
    featureScoreNearestVertex f lon0 lat0 ≤ d2T lon0 lat0 v := by
  rw [featureScore_eq_spec]
  exact listMin_le_of_mem _ _ (List.mem_map_of_mem _ hv)

theorem featureScore_zero_of_query_vertex (f : Feature) (lon0 lat0 : ℚ)
    (hv : (lon0, lat0) ∈ featureVertices f) :
    featureScoreNearestVertex f lon0 lat0 = 0 := by
  have h1 := featureScore_le_vertex f lon0 lat0 (lon0, lat0) hv
  have h2 : d2T lon0 lat0 (lon0, lat0) = 0 := by
    simp [d2T, vertexD2]
  exact le_antisymm (h2 ▸ h1) (featureScore_nonneg f lon0 lat0)

/-- A candidate whose geometry is a polygon with no rings: its
nearest-vertex score is `+∞`. -/
def degenFeature : Feature := ⟨some (Geometry.polygon []), 0⟩

def degenFC : FeatureCollection := ⟨[degenFeature]⟩

/-- C4 counterexample: a non-empty candidate list (one candidate, a polygon
with no rings) on which `chooseBestFeature` returns `null` rather than the
unique — hence minimal-score — candidate. -/
theorem claim_C4_counterexample :
    degenFC.features.length = 1 ∧ chooseBestFeature degenFC 0 0 = none := by
  exact ⟨rfl, by decide⟩

/-- C4 (amended): for every candidate list containing at least one candidate
with a finite nearest-vertex score, `chooseBestFeature` returns the first
candidate in response order whose score is minimal; a candidate with a
vertex exactly at the query point has score zero, and in that case the
selected candidate's score is also zero, so it is never a candidate with
non-zero score. -/
theorem claim_C4_chooseBestFeature_first_minimum
    (fc : FeatureCollection) (lon0 lat0 : ℚ)
    (hfin : ∃ f ∈ fc.features, featureScoreNearestVertex f lon0 lat0 < ⊤) :
    (∀ f ∈ fc.features, (lon0, lat0) ∈ featureVertices f →
        featureScoreNearestVertex f lon0 lat0 = 0) ∧
    ∃ i, ∃ hi : i < fc.features.length,
      chooseBestFeature fc lon0 lat0 = some (fc.features.get ⟨i, hi⟩) ∧
      (∀ f ∈ fc.features,
        featureScoreNearestVertex (fc.features.get ⟨i, hi⟩) lon0 lat0
          ≤ featureScoreNearestVertex f lon0 lat0) ∧
      (∀ j (hj : j < i),
        featureScoreNearestVertex (fc.features.get ⟨i, hi⟩) lon0 lat0
          < featureScoreNearestVertex (fc.features.get ⟨j, lt_trans hj hi⟩) lon0 lat0) ∧
      ((∃ f ∈ fc.features, featureScoreNearestVertex f lon0 lat0 = 0) →
        featureScoreNearestVertex (fc.features.get ⟨i, hi⟩) lon0 lat0 = 0) := by
  constructor
  · intro f _ hv
    exact featureScore_zero_of_query_vertex f lon0 lat0 hv
  · obtain ⟨f0, hf0, hlt0⟩ := hfin
    rcases hp : pickRec lon0 lat0 fc.features ⊤ with _ | g
    · have hall := (pickRec_eq_none_iff lon0 lat0 fc.features ⊤).mp hp f0 hf0
      exact absurd (top_le_iff.mp hall) (ne_of_lt hlt0)
    · obtain ⟨i, hi, hgl, _, hle, hfirst⟩ := pickRec_spec lon0 lat0 fc.features ⊤ g hp
      refine ⟨i, hi, ?_, ?_, ?_, ?_⟩
      · rw [chooseBestFeature_eq_pickRec, hp, hgl]
      · rw [← hgl]; exact hle
      · intro j hj; rw [← hgl]; exact hfirst j hj
      · rintro ⟨f1, hf1, hz⟩
        rw [← hgl]
        exact le_antisymm (hz ▸ hle f1 hf1) (featureScore_nonneg g lon0 lat0)

/-- A candidate with its single vertex at distance 5 (score 25) from the
origin. -/
def farFeature : Feature :=
  ⟨some (Geometry.polygon [some [(some 3, some 4)]]), 0⟩

/-- A candidate with a vertex exactly at the origin (score 0). -/
def zeroFeature : Feature :=
  ⟨some (Geometry.polygon [some [(some 0, some 0)]]), 1⟩

def mixedFC : FeatureCollection := ⟨[farFeature, zeroFeature]⟩

theorem claim_C4_witness :
    (∃ f ∈ mixedFC.features, featureScoreNearestVertex f 0 0 < ⊤) ∧
    ((∀ f ∈ mixedFC.features, ((0 : ℚ), (0 : ℚ)) ∈ featureVertices f →
        featureScoreNearestVertex f 0 0 = 0) ∧
      ∃ i, ∃ hi : i < mixedFC.features.length,
        chooseBestFeature mixedFC 0 0 = some (mixedFC.features.get ⟨i, hi⟩) ∧
        (∀ f ∈ mixedFC.features,
          featureScoreNearestVertex (mixedFC.features.get ⟨i, hi⟩) 0 0
            ≤ featureScoreNearestVertex f 0 0) ∧
        (∀ j (hj : j < i),
          featureScoreNearestVertex (mixedFC.features.get ⟨i, hi⟩) 0 0
            < featureScoreNearestVertex (mixedFC.features.get ⟨j, lt_trans hj hi⟩) 0 0) ∧
        ((∃ f ∈ mixedFC.features, featureScoreNearestVertex f 0 0 = 0) →
          featureScoreNearestVertex (mixedFC.features.get ⟨i, hi⟩) 0 0 = 0)) :=
  ⟨by decide, claim_C4_chooseBestFeature_first_minimum mixedFC 0 0 (by decide)⟩

/-- The method tag carried by `oneOrEmpty`'s feature payload together with the `meta` object
(`{method, radius_m?, reason?}`). -/
inductive RespMeta where
  | pointIntersects
  | envelopeFallback (radius_m : ℚ)
  | noneFound (reason : String)
deriving DecidableEq

/-- The body of a 200 response: a GeoJSON FeatureCollection plus `meta`. -/
structure RespFC where
  features : List Feature
  meta : RespMeta
deriving DecidableEq

/-- Response constructor `oneOrEmpty(best, meta)`: an empty or singleton features array. -/
def oneOrEmpty (best : Option Feature) (meta : RespMeta) : RespFC :=
  { features := match best with
      | some b => [b]
      | none => []
    meta := meta }

/-- Response constructor `singleFeatureCollection(featureOrNull)` from the single-fallback
variant of the handler: an empty or singleton FeatureCollection. -/
def singleFeatureCollection (b : Option Feature) : FeatureCollection :=
  match b with
  | none => ⟨[]⟩
  | some f => ⟨[f]⟩

/-- Conversion `metersToDeg(meters)`: degree offsets `(degLat, degLon)` for a metric
radius.  `cosLat` is the value of `Math.cos((lat * Math.PI) / 180)`,
supplied by the runtime; `0.2` is the guard floor. -/
def metersToDeg (meters cosLat : ℚ) : ℚ × ℚ :=
  let degLat := meters / 111320
  let degLon := if 1/5 < cosLat then degLat / cosLat else degLat
  (degLat, degLon)

/-- An outbound ArcGIS query: the direct point-intersects query or an
envelope query (the envelope's metric radius is recorded alongside its
coordinates; the coordinates determine it). -/
inductive Query where
  | point (lon lat : ℚ)
  | envelope (rMeters xmin ymin xmax ymax : ℚ)
deriving DecidableEq

/-- Outcome of one `fetchGeoJson` call: a parsed FeatureCollection, or a
thrown error (non-success HTTP status or fetch/parse failure). -/
inductive UpstreamResult where
  | ok (fc : FeatureCollection)
  | fail (msg : String)
deriving DecidableEq

/-- The handler's HTTP response. -/
inductive HResp where
  | badRequest (error : String)
  | ok (body : RespFC)
  | upstreamError (error details : String)
deriving DecidableEq

/-- The HTTP status code of a response. -/
def HResp.status : HResp → ℕ
  | HResp.badRequest _ => 400
  | HResp.ok _ => 200
  | HResp.upstreamError _ _ => 502

/-- The request: `some v` iff `Number(req.query.lat)` (resp. `lon`) is a
finite number, `none` when the parameter is missing or does not parse to a
finite number. -/
structure Req where
  lat : Option ℚ
  lon : Option ℚ
deriving DecidableEq

/-- The ladder `const radiiMeters = [300, 1000, 3000]`. -/
def radiiMeters : List ℚ := [300, 1000, 3000]

/-- The envelope query issued at radius `r`:
`xmin = lon - degLon, ymin = lat - degLat, xmax = lon + degLon,
ymax = lat + degLat`. -/
def envQuery (cosLat lat lon r : ℚ) : Query :=
  Query.envelope r
    (lon - (metersToDeg r cosLat).2) (lat - (metersToDeg r cosLat).1)
    (lon + (metersToDeg r cosLat).2) (lat + (metersToDeg r cosLat).1)

/-- The `for (const rMeters of radiiMeters)` loop, with the exhaustion
return after it.  Returns the response together with the envelope queries
issued. -/
def runLadder (O : Query → UpstreamResult) (cosLat lat lon : ℚ) :
    List ℚ → HResp × List Query
  | [] =>
      (HResp.ok (oneOrEmpty none (RespMeta.noneFound "no_features_within_3km")), [])
  | r :: rest =>
    let q := envQuery cosLat lat lon r
    match O q with
    | UpstreamResult.fail msg => (HResp.upstreamError "FEMA query failed" msg, [q])
    | UpstreamResult.ok fc =>
      match chooseBestFeature fc lon lat with
      | some best =>
          (HResp.ok (oneOrEmpty (some best) (RespMeta.envelopeFallback r)), [q])
      | none =>
        let out := runLadder O cosLat lat lon rest
        (out.1, q :: out.2)

/-- The request handler: validation, the direct point-intersects query,
then the fallback ladder.  Returns the response and the ordered list of
outbound queries issued. -/
def handler (O : Query → UpstreamResult) (cosLat : ℚ) (req : Req) :
    HResp × List Query :=
  match req.lat, req.lon with
  | some lat, some lon =>
    let q0 := Query.point lon lat
    match O q0 with
    | UpstreamResult.fail msg =>
        (HResp.upstreamError "FEMA query failed" msg, [q0])
    | UpstreamResult.ok fc =>
      match chooseBestFeature fc lon lat with
      | some best =>
          (HResp.ok (oneOrEmpty (some best) RespMeta.pointIntersects), [q0])
      | none =>
        let out := runLadder O cosLat lat lon radiiMeters
        (out.1, q0 :: out.2)
  | _, _ => (HResp.badRequest "Invalid lat/lon", [])

/-- The full sequence of queries the handler can issue for a valid point. -/
def ladderQueries (cosLat lat lon : ℚ) : List Query :=
  Query.point lon lat :: radiiMeters.map (envQuery cosLat lat lon)

/-- The upstream answered one query step with a parsed collection from
which no feature was selectable. -/
def okNone (lon lat : ℚ) (res : UpstreamResult) : Prop :=
  ∃ fc, res = UpstreamResult.ok fc ∧ chooseBestFeature fc lon lat = none

theorem runLadder_success (O : Query → UpstreamResult) (cosLat lat lon : ℚ)
    (fc : FeatureCollection) (b : Feature) :
    ∀ (rs : List ℚ) (i : ℕ) (hi : i < rs.length),
      (∀ j (hj : j < i),
        okNone lon lat (O (envQuery cosLat lat lon (rs.get ⟨j, lt_trans hj hi⟩)))) →
      O (envQuery cosLat lat lon (rs.get ⟨i, hi⟩)) = UpstreamResult.ok fc →
      chooseBestFeature fc lon lat = some b →
      runLadder O cosLat lat lon rs
        = (HResp.ok (oneOrEmpty (some b)
            (RespMeta.envelopeFallback (rs.get ⟨i, hi⟩))),
           (rs.take (i + 1)).map (envQuery cosLat lat lon)) := by
  intro rs
  induction rs with
  | nil => intro i hi; exact absurd hi (Nat.not_lt_zero i)
  | cons r rest ih =>
    intro i hi hprev hq hb
    cases i with
    | zero =>
      have hq' : O (envQuery cosLat lat lon r) = UpstreamResult.ok fc := hq
      simp only [runLadder, hq', hb]
      rfl
    | succ i' =>
      obtain ⟨fc0, hq0, hc0⟩ := hprev 0 (Nat.succ_pos i')
      have hq0' : O (envQuery cosLat lat lon r) = UpstreamResult.ok fc0 := hq0
      have hrest := ih i' (Nat.lt_of_succ_lt_succ hi)
        (fun j hj => hprev (j + 1) (Nat.succ_lt_succ hj)) hq hb
      simp only [runLadder, hq0', hc0, hrest]
      rfl

theorem runLadder_exhaust (O : Query → UpstreamResult) (cosLat lat lon : ℚ) :
    ∀ rs : List ℚ,
      (∀ r ∈ rs, okNone lon lat (O (envQuery cosLat lat lon r))) →
      runLadder O cosLat lat lon rs
        = (HResp.ok (oneOrEmpty none (RespMeta.noneFound "no_features_within_3km")),
           rs.map (envQuery cosLat lat lon)) := by
  intro rs
  induction rs with
  | nil => intro _; rfl
  | cons r rest ih =>
    intro hall
    obtain ⟨fc0, hq0, hc0⟩ := hall r (List.mem_cons_self r rest)
    have hrest := ih fun x hx => hall x (List.mem_cons_of_mem r hx)
    simp only [runLadder, hq0, hc0, hrest]
    rfl

theorem runLadder_fail (O : Query → UpstreamResult) (cosLat lat lon : ℚ)
    (msg : String) :
    ∀ (rs : List ℚ) (i : ℕ) (hi : i < rs.length),
      (∀ j (hj : j < i),
        okNone lon lat (O (envQuery cosLat lat lon (rs.get ⟨j, lt_trans hj hi⟩)))) →
      O (envQuery cosLat lat lon (rs.get ⟨i, hi⟩)) = UpstreamResult.fail msg →
      runLadder O cosLat lat lon rs
        = (HResp.upstreamError "FEMA query failed" msg,
           (rs.take (i + 1)).map (envQuery cosLat lat lon)) := by
  intro rs
  induction rs with
  | nil => intro i hi; exact absurd hi (Nat.not_lt_zero i)
  | cons r rest ih =>
    intro i hi hprev hq
    cases i with
    | zero =>
      have hq' : O (envQuery cosLat lat lon r) = UpstreamResult.fail msg := hq
      simp only [runLadder, hq']
      rfl
    | succ i' =>
      obtain ⟨fc0, hq0, hc0⟩ := hprev 0 (Nat.succ_pos i')
      have hq0' : O (envQuery cosLat lat lon r) = UpstreamResult.ok fc0 := hq0
      have hrest := ih i' (Nat.lt_of_succ_lt_succ hi)
        (fun j hj => hprev (j + 1) (Nat.succ_lt_succ hj)) hq
      simp only [runLadder, hq0', hc0, hrest]
      rfl

theorem runLadder_ok_length (O : Query → UpstreamResult) (cosLat lat lon : ℚ) :
    ∀ (rs : List ℚ) (body : RespFC),
      (runLadder O cosLat lat lon rs).1 = HResp.ok body →
      body.features.length ≤ 1 := by
  intro rs
  induction rs with
  | nil =>
    intro body h
    simp only [runLadder, HResp.ok.injEq] at h
    subst h
    simp [oneOrEmpty]
  | cons r rest ih =>
    intro body h
    rcases hq : O (envQuery cosLat lat lon r) with fc | msg
    · simp only [runLadder, hq] at h
      rcases hb : chooseBestFeature fc lon lat with _ | best
      · simp only [hb] at h
        exact ih body h
      · simp only [hb, HResp.ok.injEq] at h
        subst h
        simp [oneOrEmpty]
    · simp only [runLadder, hq] at h
      exact HResp.noConfusion h

/-- C2: every 200 response carries at most one feature, and both
singleton-or-empty constructors (`oneOrEmpty`, and `singleFeatureCollection`
of the single-fallback handler variant) only ever produce empty or
singleton feature arrays. -/
theorem claim_C2_at_most_one_feature (O : Query → UpstreamResult)
    (cosLat : ℚ) (req : Req) (body : RespFC)
    (h : (handler O cosLat req).1 = HResp.ok body) :
    body.features.length ≤ 1 ∧
    (∀ b m, (oneOrEmpty b m).features.length ≤ 1) ∧
    (∀ b, (singleFeatureCollection b).features.length ≤ 1) := by
  refine ⟨?_, ?_, ?_⟩
  · rcases req with ⟨lat?, lon?⟩
    cases lat? with
    | none => cases lon? <;> simp [handler] at h
    | some lat =>
      cases lon? with
      | none => simp [handler] at h
      | some lon =>
        rcases hq : O (Query.point lon lat) with fc | msg
        · simp only [handler, hq] at h
          rcases hb : chooseBestFeature fc lon lat with _ | best
          · simp only [hb] at h
            exact runLadder_ok_length O cosLat lat lon radiiMeters body h
          · simp only [hb, HResp.ok.injEq] at h
            subst h
            simp [oneOrEmpty]
        · simp only [handler, hq] at h
          exact HResp.noConfusion h
  · intro b m; cases b <;> simp [oneOrEmpty]
  · intro b; cases b <;> simp [singleFeatureCollection]

/-- C7: a request whose `lat` or `lon` is missing or does not parse to a
finite number gets `400 {error: "Invalid lat/lon"}` and no outbound query
is issued (the query trace is empty, so validation precedes any network
call). -/
theorem claim_C7_invalid_input (O : Query → UpstreamResult) (cosLat : ℚ)
    (req : Req) (h : req.lat = none ∨ req.lon = none) :
    handler O cosLat req = (HResp.badRequest "Invalid lat/lon", []) ∧
    (handler O cosLat req).1.status = 400 := by
  rcases req with ⟨lat?, lon?⟩
  rcases h with h | h
  · cases h
    cases lon? <;> exact ⟨rfl, rfl⟩
  · cases h
    cases lat? <;> exact ⟨rfl, rfl⟩

/-- C8: when the direct point-intersects query yields a selectable
candidate, the resolver returns exactly one feature with
`meta.method == "point_intersects"`, and the query trace contains only the
point query — no envelope query is issued. -/
theorem claim_C8_point_intersects (O : Query → UpstreamResult)
    (cosLat lat lon : ℚ) (fc : FeatureCollection) (b : Feature)
    (hq : O (Query.point lon lat) = UpstreamResult.ok fc)
    (hb : chooseBestFeature fc lon lat = some b) :
    handler O cosLat ⟨some lat, some lon⟩
      = (HResp.ok (oneOrEmpty (some b) RespMeta.pointIntersects),
         [Query.point lon lat]) ∧
    (oneOrEmpty (some b) RespMeta.pointIntersects).features = [b] := by
  constructor
  · simp only [handler, hq, hb]
  · rfl

/-- C5: when the direct query and every fallback radius yield no
selectable candidate, the resolver returns a 200 response whose
FeatureCollection is empty, with `meta.method == "none"` and a reason
string — an empty result, not an error. -/
theorem claim_C5_exhaustion (O : Query → UpstreamResult) (cosLat lat lon : ℚ)
    (h0 : okNone lon lat (O (Query.point lon lat)))
    (hall : ∀ r ∈ radiiMeters, okNone lon lat (O (envQuery cosLat lat lon r))) :
    handler O cosLat ⟨some lat, some lon⟩
      = (HResp.ok (oneOrEmpty none (RespMeta.noneFound "no_features_within_3km")),
         ladderQueries cosLat lat lon) ∧
    (oneOrEmpty none (RespMeta.noneFound "no_features_within_3km")).features = [] ∧
    (HResp.ok (oneOrEmpty none
      (RespMeta.noneFound "no_features_within_3km"))).status = 200 := by
  obtain ⟨fc0, hq0, hc0⟩ := h0
  have hl := runLadder_exhaust O cosLat lat lon radiiMeters hall
  refine ⟨?_, rfl, rfl⟩
  simp only [handler, hq0, hc0, hl, ladderQueries]

/-- C6: if the first upstream query that fails (non-success status or
thrown error) is reached — every earlier step having yielded no selectable
candidate — the whole resolution aborts with
`502 {error: "FEMA query failed", details}`; the failure is never turned
into an empty candidate set or an empty FeatureCollection. -/
theorem claim_C6_upstream_failure (O : Query → UpstreamResult)
    (cosLat lat lon : ℚ) (msg : String) (i : ℕ)
    (hi : i < (ladderQueries cosLat lat lon).length)
    (hprev : ∀ j (hj : j < i),
      okNone lon lat (O ((ladderQueries cosLat lat lon).get ⟨j, lt_trans hj hi⟩)))
    (hfail : O ((ladderQueries cosLat lat lon).get ⟨i, hi⟩)
      = UpstreamResult.fail msg) :
    handler O cosLat ⟨some lat, some lon⟩
      = (HResp.upstreamError "FEMA query failed" msg,
         (ladderQueries cosLat lat lon).take (i + 1)) ∧
    (handler O cosLat ⟨some lat, some lon⟩).1.status = 502 := by
  have hi4 : i < 4 := by simpa [ladderQueries, radiiMeters] using hi
  have hmain : handler O cosLat ⟨some lat, some lon⟩
      = (HResp.upstreamError "FEMA query failed" msg,
         (ladderQueries cosLat lat lon).take (i + 1)) := by
    interval_cases i
    · have hf : O (Query.point lon lat) = UpstreamResult.fail msg := hfail
      simp only [handler, hf]
      rfl
    · obtain ⟨fc0, hq0, hc0⟩ := hprev 0 (by norm_num)
      have hq0' : O (Query.point lon lat) = UpstreamResult.ok fc0 := hq0
      have hf : O (envQuery cosLat lat lon 300) = UpstreamResult.fail msg := hfail
      simp only [handler, hq0', hc0, radiiMeters, runLadder, hf]
      rfl
    · obtain ⟨fc0, hq0, hc0⟩ := hprev 0 (by norm_num)
      obtain ⟨fc1, hq1, hc1⟩ := hprev 1 (by norm_num)
      have hq0' : O (Query.point lon lat) = UpstreamResult.ok fc0 := hq0
      have hq1' : O (envQuery cosLat lat lon 300) = UpstreamResult.ok fc1 := hq1
      have hf : O (envQuery cosLat lat lon 1000) = UpstreamResult.fail msg := hfail
      simp only [handler, hq0', hc0, radiiMeters, runLadder, hq1', hc1, hf]
      rfl
    · obtain ⟨fc0, hq0, hc0⟩ := hprev 0 (by norm_num)
      obtain ⟨fc1, hq1, hc1⟩ := hprev 1 (by norm_num)
      obtain ⟨fc2, hq2, hc2⟩ := hprev 2 (by norm_num)
      have hq0' : O (Query.point lon lat) = UpstreamResult.ok fc0 := hq0
      have hq1' : O (envQuery cosLat lat lon 300) = UpstreamResult.ok fc1 := hq1
      have hq2' : O (envQuery cosLat lat lon 1000) = UpstreamResult.ok fc2 := hq2
      have hf : O (envQuery cosLat lat lon 3000) = UpstreamResult.fail msg := hfail
      simp only [handler, hq0', hc0, radiiMeters, runLadder, hq1', hc1, hq2',
        hc2, hf]
      rfl
  exact ⟨hmain, by rw [hmain]; rfl⟩

/-- An upstream that answers every query with the same collection. -/
def oracleAll (fc : FeatureCollection) : Query → UpstreamResult :=
  fun _ => UpstreamResult.ok fc

/-- An upstream with no direct hit, a non-empty but degenerate candidate
set at 300 m, and a selectable candidate at 1000 m. -/
def oracleDegen300 : Query → UpstreamResult := fun q =>
  match q with
  | Query.point _ _ => UpstreamResult.ok ⟨[]⟩
  | Query.envelope r _ _ _ _ =>
      if r = 300 then UpstreamResult.ok degenFC
      else if r = 1000 then UpstreamResult.ok ⟨[zeroFeature]⟩
      else UpstreamResult.ok ⟨[]⟩

/-- C1 counterexample: with no direct candidate, a non-empty candidate set
at 300 m (one degenerate feature) and a selectable candidate at 1000 m,
the resolver reports `radius_m = 1000`, not the smallest radius (300) at
which the candidate set was non-empty. -/
theorem claim_C1_counterexample :
    (handler oracleDegen300 1 ⟨some 0, some 0⟩).1
      = HResp.ok (oneOrEmpty (some zeroFeature) (RespMeta.envelopeFallback 1000)) ∧
    oracleDegen300 (envQuery 1 0 0 300) = UpstreamResult.ok degenFC ∧
    degenFC.features ≠ [] := by
  refine ⟨by decide, by decide, by decide⟩

/-- C1 (amended): for a valid point where the direct query and every
fallback radius before `radiiMeters[i]` yield no selectable candidate and
radius `radiiMeters[i]` yields one, the resolver returns exactly one
feature with `meta.method == "envelope_fallback"` and `meta.radius_m`
equal to that radius — the smallest radius producing a selectable
candidate — and the query trace stops at that radius, so no larger radius
is ever queried. -/
theorem claim_C1_envelope_fallback_smallest_radius (O : Query → UpstreamResult)
    (cosLat lat lon : ℚ) (i : ℕ) (hi : i < radiiMeters.length)
    (h0 : okNone lon lat (O (Query.point lon lat)))
    (hprev : ∀ j (hj : j < i),
      okNone lon lat (O (envQuery cosLat lat lon (radiiMeters.get ⟨j, lt_trans hj hi⟩))))
    (fc : FeatureCollection) (b : Feature)
    (hq : O (envQuery cosLat lat lon (radiiMeters.get ⟨i, hi⟩))
      = UpstreamResult.ok fc)
    (hb : chooseBestFeature fc lon lat = some b) :
    handler O cosLat ⟨some lat, some lon⟩
      = (HResp.ok (oneOrEmpty (some b)
          (RespMeta.envelopeFallback (radiiMeters.get ⟨i, hi⟩))),
         Query.point lon lat
           :: (radiiMeters.take (i + 1)).map (envQuery cosLat lat lon)) ∧
    (oneOrEmpty (some b)
      (RespMeta.envelopeFallback (radiiMeters.get ⟨i, hi⟩))).features = [b] := by
  obtain ⟨fc0, hq0, hc0⟩ := h0
  have hl := runLadder_success O cosLat lat lon fc b radiiMeters i hi hprev hq hb
  refine ⟨?_, rfl⟩
  simp only [handler, hq0, hc0, hl]

/-- An upstream with no direct hit, nothing at 300 m and a selectable
candidate at 1000 m (the spec's fallback scenario). -/
def oracleHit1000 : Query → UpstreamResult := fun q =>
  match q with
  | Query.point _ _ => UpstreamResult.ok ⟨[]⟩
  | Query.envelope r _ _ _ _ =>
      if r = 1000 then UpstreamResult.ok ⟨[zeroFeature]⟩
      else UpstreamResult.ok ⟨[]⟩

theorem claim_C1_witness :
    handler oracleHit1000 1 ⟨some 0, some 0⟩
      = (HResp.ok (oneOrEmpty (some zeroFeature)
          (RespMeta.envelopeFallback (radiiMeters.get ⟨1, by decide⟩))),
         Query.point 0 0
           :: (radiiMeters.take 2).map (envQuery 1 0 0)) ∧
    (oneOrEmpty (some zeroFeature)
      (RespMeta.envelopeFallback (radiiMeters.get ⟨1, by decide⟩))).features
      = [zeroFeature] := by
  have hi : (1 : ℕ) < radiiMeters.length := by decide
  have h300 : oracleHit1000 (envQuery 1 0 0 300) = UpstreamResult.ok ⟨[]⟩ := by
    decide
  have h1000 : oracleHit1000 (envQuery 1 0 0 1000)
      = UpstreamResult.ok ⟨[zeroFeature]⟩ := by decide
  have hb : chooseBestFeature ⟨[zeroFeature]⟩ 0 0 = some zeroFeature := by decide
  have hprev : ∀ j (hj : j < 1),
      okNone 0 0 (oracleHit1000 (envQuery 1 0 0 (radiiMeters.get ⟨j, lt_trans hj hi⟩))) := by
    intro j hj
    interval_cases j
    exact ⟨⟨[]⟩, h300, rfl⟩
  exact claim_C1_envelope_fallback_smallest_radius oracleHit1000 1 0 0 1
    hi ⟨⟨[]⟩, rfl, rfl⟩ hprev ⟨[zeroFeature]⟩ zeroFeature h1000 hb

theorem claim_C2_witness :
    (handler (oracleAll ⟨[]⟩) 1 ⟨some 0, some 0⟩).1
      = HResp.ok ⟨[], RespMeta.noneFound "no_features_within_3km"⟩ ∧
    ((⟨[], RespMeta.noneFound "no_features_within_3km"⟩ : RespFC).features.length ≤ 1 ∧
      (∀ b m, (oneOrEmpty b m).features.length ≤ 1) ∧
      (∀ b, (singleFeatureCollection b).features.length ≤ 1)) := by
  have h : (handler (oracleAll ⟨[]⟩) 1 ⟨some 0, some 0⟩).1
      = HResp.ok ⟨[], RespMeta.noneFound "no_features_within_3km"⟩ := by decide
  exact ⟨h, claim_C2_at_most_one_feature (oracleAll ⟨[]⟩) 1 ⟨some 0, some 0⟩ _ h⟩

theorem claim_C5_witness :
    handler (oracleAll ⟨[]⟩) 1 ⟨some 0, some 0⟩
      = (HResp.ok (oneOrEmpty none (RespMeta.noneFound "no_features_within_3km")),
         ladderQueries 1 0 0) ∧
    (oneOrEmpty none (RespMeta.noneFound "no_features_within_3km")).features = [] ∧
    (HResp.ok (oneOrEmpty none
      (RespMeta.noneFound "no_features_within_3km"))).status = 200 :=
  claim_C5_exhaustion (oracleAll ⟨[]⟩) 1 0 0 ⟨⟨[]⟩, rfl, rfl⟩
    (fun _ _ => ⟨⟨[]⟩, rfl, rfl⟩)

/-- An upstream that is down: every query fails. -/
def oracleDown : Query → UpstreamResult := fun _ => UpstreamResult.fail "boom"

theorem claim_C6_witness :
    handler oracleDown 1 ⟨some 0, some 0⟩
      = (HResp.upstreamError "FEMA query failed" "boom",
         (ladderQueries 1 0 0).take 1) ∧
    (handler oracleDown 1 ⟨some 0, some 0⟩).1.status = 502 :=
  claim_C6_upstream_failure oracleDown 1 0 0 "boom" 0 (by decide)
    (fun j hj => absurd hj (Nat.not_lt_zero j)) rfl

theorem claim_C7_witness :
    handler oracleDown 1 ⟨none, some 0⟩
      = (HResp.badRequest "Invalid lat/lon", []) ∧
    (handler oracleDown 1 ⟨none, some 0⟩).1.status = 400 :=
  claim_C7_invalid_input oracleDown 1 ⟨none, some 0⟩ (Or.inl rfl)

theorem score_zeroFeature : featureScoreNearestVertex zeroFeature 0 0
    = (0 : WithTop ℚ) := by
  have hlt : ((vertexD2 0 0 0 0 : ℚ) : WithTop ℚ) < ⊤ := WithTop.coe_lt_top _
  simp only [zeroFeature, featureScoreNearestVertex, coordsOf, List.isEmpty,
    List.foldl_cons, List.foldl_nil, ringStep, ptStep, if_pos hlt]
  norm_num [vertexD2]

theorem score_farFeature : featureScoreNearestVertex farFeature 0 0
    = ((25 : ℚ) : WithTop ℚ) := by
  have hlt : ((vertexD2 0 0 3 4 : ℚ) : WithTop ℚ) < ⊤ := WithTop.coe_lt_top _
  simp only [farFeature, featureScoreNearestVertex, coordsOf, List.isEmpty,
    List.foldl_cons, List.foldl_nil, ringStep, ptStep, if_pos hlt]
  norm_num [vertexD2]

theorem chooseBest_mixedFC : chooseBestFeature mixedFC 0 0 = some zeroFeature := by
  have h1 : chooseStep 0 0 (none, ⊤) farFeature
      = (some farFeature, ((25 : ℚ) : WithTop ℚ)) := by
    simp [chooseStep, score_farFeature]
  have hlt : (0 : WithTop ℚ) < ((25 : ℚ) : WithTop ℚ) := by
    rw [show (0 : WithTop ℚ) = ((0 : ℚ) : WithTop ℚ) from rfl, WithTop.coe_lt_coe]
    norm_num
  have h2 : chooseStep 0 0 (some farFeature, ((25 : ℚ) : WithTop ℚ)) zeroFeature
      = (some zeroFeature, (0 : WithTop ℚ)) := by
    simp only [chooseStep, score_zeroFeature]
    rw [if_pos hlt]
  show (List.foldl (chooseStep 0 0) (none, ⊤) [farFeature, zeroFeature]).1
      = some zeroFeature
  rw [List.foldl_cons, h1, List.foldl_cons, h2, List.foldl_nil]

theorem claim_C8_witness :
    handler (oracleAll mixedFC) 1 ⟨some 0, some 0⟩
      = (HResp.ok (oneOrEmpty (some zeroFeature) RespMeta.pointIntersects),
         [Query.point 0 0]) ∧
    (oneOrEmpty (some zeroFeature) RespMeta.pointIntersects).features
      = [zeroFeature] :=
  claim_C8_point_intersects (oracleAll mixedFC) 1 0 0 mixedFC zeroFeature
    rfl chooseBest_mixedFC

/-- C9: the envelope conversion computes `degLat = meters / 111320`, and
`degLon = degLat / cosLat` exactly when `cosLat > 0.2` and `degLon =
degLat` otherwise; the effective divisor is always at least the floor 0.2,
so for a non-negative radius the longitude offset never exceeds five times
the latitude offset. -/
theorem claim_C9_metersToDeg (m c : ℚ) :
    (metersToDeg m c).1 = m / 111320 ∧
    (1/5 < c → (metersToDeg m c).2 = (metersToDeg m c).1 / c) ∧
    (c ≤ 1/5 → (metersToDeg m c).2 = (metersToDeg m c).1) ∧
    (∃ d : ℚ, 1/5 ≤ d ∧ (metersToDeg m c).2 = (metersToDeg m c).1 / d) ∧
    (0 ≤ m → (metersToDeg m c).2 ≤ 5 * (metersToDeg m c).1) := by
  have hite : (metersToDeg m c).2
      = if 1/5 < c then m / 111320 / c else m / 111320 := rfl
  refine ⟨rfl, ?_, ?_, ?_, ?_⟩
  · intro hc
    rw [hite, if_pos hc]; rfl
  · intro hc
    rw [hite, if_neg (not_lt.mpr hc)]; rfl
  · by_cases h : 1/5 < c
    · exact ⟨c, le_of_lt h, by rw [hite, if_pos h]; rfl⟩
    · exact ⟨1, by norm_num, by rw [hite, if_neg h]; exact (div_one _).symm⟩
  · intro hm
    have ha : (0 : ℚ) ≤ m / 111320 := div_nonneg hm (by norm_num)
    by_cases h : 1/5 < c
    · have hc0 : (0 : ℚ) < c := lt_trans (by norm_num) h
      rw [hite, if_pos h]
      show m / 111320 / c ≤ 5 * (m / 111320)
      rw [div_le_iff₀ hc0]
      nlinarith [mul_nonneg (le_of_lt (sub_pos.mpr h)) ha]
    · rw [hite, if_neg h]
      show m / 111320 ≤ 5 * (m / 111320)
      linarith

theorem claim_C9_witness :
    (metersToDeg 300 1).1 = 300 / 111320 ∧
    (metersToDeg 300 1).2 ≤ 5 * (metersToDeg 300 1).1 :=
  ⟨(claim_C9_metersToDeg 300 1).1,
   (claim_C9_metersToDeg 300 1).2.2.2.2 (by norm_num)⟩

/-- C10: in a non-empty candidate collection in which no feature has a
Polygon/MultiPolygon geometry with a finite vertex, every candidate scores
`+∞`, `chooseBestFeature` returns `null`, and the resolver treats such a
query step exactly as if it had yielded no candidates: after the direct
query it proceeds to the fallback ladder, and inside the ladder it
escalates past the radius (continuing with the remaining radii, which
ends in the empty "none" result when no radius remains). -/
theorem claim_C10_degenerate_candidates (fc : FeatureCollection)
    (_hne : fc.features ≠ [])
    (hdeg : ∀ f ∈ fc.features, featureVertices f = []) :
    (∀ lon0 lat0 : ℚ, ∀ f ∈ fc.features,
        featureScoreNearestVertex f lon0 lat0 = ⊤) ∧
    (∀ lon0 lat0 : ℚ, chooseBestFeature fc lon0 lat0 = none) ∧
    (∀ (O : Query → UpstreamResult) (cosLat lat lon : ℚ),
        O (Query.point lon lat) = UpstreamResult.ok fc →
        handler O cosLat ⟨some lat, some lon⟩
          = ((runLadder O cosLat lat lon radiiMeters).1,
             Query.point lon lat :: (runLadder O cosLat lat lon radiiMeters).2)) ∧
    (∀ (O : Query → UpstreamResult) (cosLat lat lon r : ℚ) (rest : List ℚ),
        O (envQuery cosLat lat lon r) = UpstreamResult.ok fc →
        runLadder O cosLat lat lon (r :: rest)
          = ((runLadder O cosLat lat lon rest).1,
             envQuery cosLat lat lon r :: (runLadder O cosLat lat lon rest).2)) := by
  have hscore : ∀ lon0 lat0 : ℚ, ∀ f ∈ fc.features,
      featureScoreNearestVertex f lon0 lat0 = ⊤ := by
    intro lon0 lat0 f hf
    rw [featureScore_eq_spec, specNearestVertexScore, hdeg f hf]
    rfl
  have hchoose : ∀ lon0 lat0 : ℚ, chooseBestFeature fc lon0 lat0 = none := by
    intro lon0 lat0
    rw [chooseBestFeature_eq_pickRec]
    exact (pickRec_eq_none_iff lon0 lat0 fc.features ⊤).mpr
      fun f hf => (hscore lon0 lat0 f hf).ge
  refine ⟨hscore, hchoose, ?_, ?_⟩
  · intro O cosLat lat lon hq
    simp only [handler, hq, hchoose lon lat]
  · intro O cosLat lat lon r rest hq
    simp only [runLadder, hq, hchoose lon lat]

theorem claim_C10_witness :
    (∀ f ∈ degenFC.features, featureScoreNearestVertex f 0 0 = ⊤) ∧
    chooseBestFeature degenFC 0 0 = none ∧
    handler (oracleAll degenFC) 1 ⟨some 0, some 0⟩
      = ((runLadder (oracleAll degenFC) 1 0 0 radiiMeters).1,
         Query.point 0 0 :: (runLadder (oracleAll degenFC) 1 0 0 radiiMeters).2) := by
  have h := claim_C10_degenerate_candidates degenFC (by decide) (by decide)
  exact ⟨fun f hf => h.1 0 0 f hf, h.2.1 0 0,
    h.2.2.1 (oracleAll degenFC) 1 0 0 rfl⟩

end ParkWatch
